import Mathlib

/-!
Shallow embedding of the slug-assignment and generic keyed-attribute
behaviors of `entropy/base/__init__.py` (django-entropy), together with
theorems settling the spec claims about them.

The embedded pieces are `BaseSlugMixin.save`, `BaseSlugMixin.slugify_uniquely`,
`AttributeMixin._attributes`, `AttributeMixin.__getitem__` and
`AttributeMixin.__setitem__`.  The backing store of existing slugs of one
concrete model class is a `List String` (one entry per saved row); the
attribute rows of one owner are a `List AttrRow`.
-/

namespace Entropy

/-- Python-level error outcomes arising on the embedded code paths. -/
inductive PyError where
  | unboundLocalError : PyError
  | attributeError : PyError
  | keyError : PyError
  | multipleObjectsReturned : PyError
deriving DecidableEq, Repr

/-- Character translation step of the slugify model: whitespace and hyphens
become separators, alphanumerics are lowercased, underscores kept, everything
else dropped. -/
def slugMapChar (c : Char) : Option Char :=
  if c.isWhitespace || c = '-' then some '-'
  else if c.isAlpha || c.isDigit || c = '_' then some c.toLower
  else none

/-- Collapse every run of consecutive hyphens into a single hyphen. -/
def collapseHyphens : List Char → List Char
  | [] => []
  | c :: cs =>
    match collapseHyphens cs with
    | [] => [c]
    | d :: rest => if c = '-' && d = '-' then d :: rest else c :: d :: rest

/-- Modelled from the dependency django.utils.text.slugify (ASCII path, which
is not part of this repository): lowercase, keep alphanumerics and
underscores, turn whitespace and hyphen runs into single hyphens and strip
leading and trailing hyphens.  Every theorem below is parametric in this
function's output; it is spelled out so witnesses can evaluate concrete
inputs. -/
def slugify (s : String) : String :=
  let mapped := s.data.filterMap slugMapChar
  let collapsed := collapseHyphens mapped
  let trimmed :=
    ((collapsed.dropWhile (fun c => c = '-')).reverse.dropWhile (fun c => c = '-')).reverse
  String.mk trimmed

/-- The candidate probed on loop pass `i` of `slugify_uniquely`: the base slug
first, then `base-1`, `base-2`, ... (the source concatenates the base, a
hyphen and the decimal rendering of the incremented index). -/
def slugCandidate (base : String) : Nat → String
  | 0 => base
  | i + 1 => base ++ "-" ++ Nat.repr (i + 1)

/-- The while loop of `slugify_uniquely`: probe the store for `slug`; on a hit
increment `index` and retry with the suffixed candidate.  `fuel` bounds the
number of probes; `none` means the bound was exhausted (proved unreachable for
`fuel = store.length + 1` below). -/
def slugLoop (store : List String) (base : String) : String → Nat → Nat → Option String
  | _, _, 0 => none
  | slug, index, fuel + 1 =>
    if slug ∈ store then
      slugLoop store base (base ++ "-" ++ Nat.repr (index + 1)) (index + 1) fuel
    else
      some slug

/-- BaseSlugMixin.slugify_uniquely: normalize the sluggable string, then walk
candidates `base`, `base-1`, `base-2`, ... until one is absent from the store
of existing slugs of the concrete model class.  At most `store.length + 1`
probes are ever needed, so that is the fuel budget. -/
def slugify_uniquely (store : List String) (sluggable : String) : Option String :=
  let base := slugify sluggable
  slugLoop store base base 0 (store.length + 1)

/-- State of an entity using BaseSlugMixin: the identity (`none` before the
first save), the slug field (empty string while unset), and the optional
`title` and `name` fields.  The outer `Option` records whether the Python
attribute exists at all (`hasattr`), the inner one whether its value is
`None`. -/
structure SlugEntity where
  id : Option Nat
  slug : String
  title : Option (Option String)
  name : Option (Option String)
deriving DecidableEq, Repr

/-- Value of the local variable `sluggable` in BaseSlugMixin.save after the
two `hasattr` branches ran: `none` when neither branch assigned it, so that
the local is still unbound when the `is not None` test reads it. -/
def sluggableLocal (e : SlugEntity) : Option (Option String) :=
  let afterTitle : Option (Option String) :=
    match e.title with
    | some v => some v
    | none => none
  match e.name with
  | some v => some v
  | none => afterTitle

/-- Model of the framework-level `Model.save` that BaseSlugMixin.save
delegates to: the row is inserted, the entity gains an identity, and its slug
value joins the store of slugs of its concrete class. -/
def superSave (store : List String) (newId : Nat) (e : SlugEntity) :
    SlugEntity × List String :=
  ({ e with id := some newId }, store ++ [e.slug])

/-- BaseSlugMixin.save: on a first save (no identity) with no slug yet, read
`title` then `name` into the local `sluggable` and, when that value is not
`None`, assign `slugify_uniquely` of it to the slug before delegating; when
neither field exists the final `is not None` test raises UnboundLocalError.
The outer `Option` is `none` only on loop-fuel exhaustion, which is proved
unreachable. -/
def save (store : List String) (newId : Nat) (e : SlugEntity) :
    Option (Except PyError (SlugEntity × List String)) :=
  if e.id = none ∧ e.slug = "" then
    match sluggableLocal e with
    | none => some (Except.error PyError.unboundLocalError)
    | some none => some (Except.ok (superSave store newId e))
    | some (some s) =>
      match slugify_uniquely store s with
      | some slug => some (Except.ok (superSave store newId { e with slug := slug }))
      | none => none
  else
    some (Except.ok (superSave store newId e))

/-- A fresh, never-saved entity whose `name` field holds the given string and
which declares no `title` field. -/
def mkFresh (c : String) : SlugEntity :=
  { id := none, slug := "", title := none, name := some (some c) }

/-- Create entities for the given candidate strings in sequence: each is built
fresh with the candidate as its `name`, saved against the accumulated slug
store, and its assigned slug recorded.  Returns the assigned slugs in order
together with the final store. -/
def createAll (store : List String) : List String → Option (List String × List String)
  | [] => some ([], store)
  | c :: rest =>
    match save store 1 (mkFresh c) with
    | some (Except.ok (e, store2)) =>
      match createAll store2 rest with
      | some (slugs, final) => some (e.slug :: slugs, final)
      | none => none
    | _ => none

/-- A stored Attribute row as seen from one owner: a (name, value) pair (the
generic foreign key linking it to the owner is implicit in keeping the rows
of one owner together). -/
structure AttrRow where
  name : String
  value : String
deriving DecidableEq, Repr

/-- An entity using AttributeMixin: the declared fields and properties that
`getattr` can resolve, and the Attribute rows of its generic relation. -/
structure AttrOwner where
  fields : List (String × String)
  rows : List AttrRow
deriving DecidableEq, Repr

/-- Python `dict` built from a list of pairs: a later pair with the same key
overrides an earlier one (the recursion consults the later pairs first). -/
def dictOfPairs : List (String × String) → String → Option String
  | [], _ => none
  | p :: ps, k =>
    match dictOfPairs ps k with
    | some v => some v
    | none => if k = p.1 then some p.2 else none

/-- AttributeMixin._attributes: the name-to-value snapshot dict built from the
owner's attribute rows, name to value. -/
def attributesDict (o : AttrOwner) (k : String) : Option String :=
  dictOfPairs (o.rows.map (fun r => (r.name, r.value))) k

/-- Resolution of `getattr(self, key)` on the owner: a declared field or
property, or failure (AttributeError). -/
def lookupField (o : AttrOwner) (k : String) : Option String :=
  (o.fields.find? (fun p => p.1 == k)).map (fun p => p.2)

/-- AttributeMixin.__getitem__: try `getattr` first; on AttributeError fall
back to the `_attributes` snapshot, whose missing-key access raises
KeyError. -/
def getitem (o : AttrOwner) (k : String) : Except PyError String :=
  match lookupField o k with
  | some v => Except.ok v
  | none =>
    match attributesDict o k with
    | some v => Except.ok v
    | none => Except.error PyError.keyError

/-- The rows `self.attributes.get(name=key)` selects from: zero hits raise
DoesNotExist, two or more raise MultipleObjectsReturned. -/
def matchingRows (o : AttrOwner) (k : String) : List AttrRow :=
  o.rows.filter (fun r => r.name == k)

/-- AttributeMixin.__setitem__: fetch the single row named `key` (creating an
unsaved one on DoesNotExist), set its value and save it, then run
`del self._attributes` - which always raises AttributeError, because
`_attributes` is a method of the class and not an instance attribute.  The
result pairs the owner state after the write with the error the call
raises. -/
def setitem (o : AttrOwner) (k v : String) : AttrOwner × Option PyError :=
  match matchingRows o k with
  | [] =>
    ({ o with rows := o.rows ++ [{ name := k, value := v }] },
      some PyError.attributeError)
  | [_] =>
    ({ o with rows := o.rows.map (fun r => if r.name == k then { r with value := v } else r) },
      some PyError.attributeError)
  | _ => (o, some PyError.multipleObjectsReturned)

theorem digitChar_inj : ∀ a < 10, ∀ b < 10, Nat.digitChar a = Nat.digitChar b → a = b := by decide

theorem toDigitsCore_acc (b : Nat) :
    ∀ fuel n ds, Nat.toDigitsCore b fuel n ds = Nat.toDigitsCore b fuel n [] ++ ds := by
  intro fuel
  induction fuel with
  | zero => intro n ds; rfl
  | succ f ih =>
    intro n ds
    rw [Nat.toDigitsCore, Nat.toDigitsCore]
    by_cases h : n / b = 0
    · simp [h]
    · simp only [h, if_false]
      rw [ih (n / b) [Nat.digitChar (n % b)], ih (n / b) (Nat.digitChar (n % b) :: ds)]
      simp

theorem toDigitsCore_fuel (b : Nat) (hb : 2 ≤ b) :
    ∀ n f1 f2 ds, n < f1 → n < f2 →
      Nat.toDigitsCore b f1 n ds = Nat.toDigitsCore b f2 n ds := by
  intro n
  induction n using Nat.strong_induction_on with
  | _ n ih =>
    intro f1 f2 ds h1 h2
    cases f1 with
    | zero => omega
    | succ g1 =>
      cases f2 with
      | zero => omega
      | succ g2 =>
        rw [Nat.toDigitsCore, Nat.toDigitsCore]
        by_cases h : n / b = 0
        · simp [h]
        · simp only [h, if_false]
          have hn : 0 < n := by
            rcases Nat.eq_zero_or_pos n with rfl | h' 
            · exact absurd (Nat.zero_div b) h
            · exact h'
          have hd : n / b < n := Nat.div_lt_self hn (by omega)
          exact ih (n / b) hd g1 g2 _ (by omega) (by omega)

theorem toDigits_ten_lt (n : Nat) (h : n < 10) : Nat.toDigits 10 n = [Nat.digitChar n] := by
  rw [Nat.toDigits, Nat.toDigitsCore]
  have h0 : n / 10 = 0 := Nat.div_eq_of_lt h
  simp [h0, Nat.mod_eq_of_lt h]

theorem toDigits_ten_ge (n : Nat) (h : 10 ≤ n) :
    Nat.toDigits 10 n = Nat.toDigits 10 (n / 10) ++ [Nat.digitChar (n % 10)] := by
  have h0 : n / 10 ≠ 0 := Nat.pos_iff_ne_zero.mp (Nat.div_pos h (by omega))
  rw [Nat.toDigits, Nat.toDigitsCore]
  simp only [h0, if_false]
  rw [toDigitsCore_acc]
  rw [Nat.toDigits]
  congr 1
  exact toDigitsCore_fuel 10 (by omega) (n / 10) n (n / 10 + 1)
    [] (Nat.lt_of_lt_of_le (Nat.div_lt_self (by omega) (by omega)) (by omega)) (Nat.lt_succ_self _)

theorem toDigits_ten_ne_nil (n : Nat) : Nat.toDigits 10 n ≠ [] := by
  by_cases h : n < 10
  · rw [toDigits_ten_lt n h]; simp
  · rw [toDigits_ten_ge n (by omega)]; simp

theorem toDigits_ten_inj : ∀ m, ∀ n, Nat.toDigits 10 m = Nat.toDigits 10 n → m = n := by
  intro m
  induction m using Nat.strong_induction_on with
  | _ m ih =>
    intro n h
    by_cases hm : m < 10 <;> by_cases hn : n < 10
    · rw [toDigits_ten_lt m hm, toDigits_ten_lt n hn] at h
      exact digitChar_inj m hm n hn (List.cons.inj h).1
    · exfalso
      rw [toDigits_ten_lt m hm, toDigits_ten_ge n (by omega)] at h
      have hlen := congrArg List.length h
      simp [List.length_append] at hlen
      exact toDigits_ten_ne_nil (n / 10) hlen
    · exfalso
      rw [toDigits_ten_ge m (by omega), toDigits_ten_lt n hn] at h
      have hlen := congrArg List.length h
      simp [List.length_append] at hlen
      exact toDigits_ten_ne_nil (m / 10) hlen
    · rw [toDigits_ten_ge m (by omega), toDigits_ten_ge n (by omega)] at h
      obtain ⟨h1, h2⟩ := List.append_inj' h rfl
      have hdiv : m / 10 = n / 10 :=
        ih (m / 10) (Nat.div_lt_self (by omega) (by omega)) (n / 10) h1
      have hmod : m % 10 = n % 10 :=
        digitChar_inj (m % 10) (Nat.mod_lt _ (by omega)) (n % 10) (Nat.mod_lt _ (by omega))
          (List.cons.inj h2).1
      omega

theorem repr_inj : ∀ m n : Nat, Nat.repr m = Nat.repr n → m = n := by
  intro m n h
  apply toDigits_ten_inj
  have h2 := congrArg String.data h
  simpa [Nat.repr, List.asString] using h2

theorem string_ext {x y : String} (h : x.data = y.data) : x = y := by
  cases x; cases y; exact congrArg String.mk h

theorem string_append_cancel_left {a x y : String} (h : a ++ x = a ++ y) : x = y := by
  have hd := congrArg String.data h
  rw [String.data_append, String.data_append] at hd
  exact string_ext (List.append_cancel_left hd)

theorem slugCandidate_inj (base : String) : Function.Injective (slugCandidate base) := by
  intro i j h
  match i, j with
  | 0, 0 => rfl
  | 0, j + 1 =>
    exfalso
    have hl := congrArg String.length h
    rw [slugCandidate, slugCandidate, String.length_append, String.length_append] at hl
    have hone : ("-" : String).length = 1 := rfl
    omega
  | i + 1, 0 =>
    exfalso
    have hl := congrArg String.length h
    rw [slugCandidate, slugCandidate, String.length_append, String.length_append] at hl
    have hone : ("-" : String).length = 1 := rfl
    omega
  | i + 1, j + 1 =>
    have h2 : (base ++ "-") ++ Nat.repr (i + 1) = (base ++ "-") ++ Nat.repr (j + 1) := h
    have h3 := repr_inj (i + 1) (j + 1) (string_append_cancel_left h2)
    omega

theorem slugLoop_mem (store : List String) (base : String) :
    ∀ fuel slug index r, slugLoop store base slug index fuel = some r → r ∉ store := by
  intro fuel
  induction fuel with
  | zero => intro slug index r h; exact absurd h (by rw [slugLoop]; exact Option.noConfusion)
  | succ f ih =>
    intro slug index r h
    rw [slugLoop] at h
    by_cases hm : slug ∈ store
    · rw [if_pos hm] at h
      exact ih _ _ _ h
    · rw [if_neg hm] at h
      cases h
      exact hm

theorem slugLoop_first_free (store : List String) (base : String) :
    ∀ fuel index j, index ≤ j → j < index + fuel →
      (∀ t, index ≤ t → t < j → slugCandidate base t ∈ store) →
      slugCandidate base j ∉ store →
      slugLoop store base (slugCandidate base index) index fuel = some (slugCandidate base j) := by
  intro fuel
  induction fuel with
  | zero => intro index j h1 h2 _ _; omega
  | succ f ih =>
    intro index j hij hlt hmem hfree
    rw [slugLoop]
    by_cases hcase : index = j
    · subst hcase
      rw [if_neg hfree]
    · have hx : slugCandidate base index ∈ store := hmem index (Nat.le_refl _) (by omega)
      rw [if_pos hx]
      have hc : base ++ "-" ++ Nat.repr (index + 1) = slugCandidate base (index + 1) := rfl
      rw [hc]
      exact ih (index + 1) j (by omega) (by omega) (fun t ht1 ht2 => hmem t (by omega) ht2) hfree

theorem slugCandidate_exists_free (store : List String) (base : String) :
    ∃ j, j ≤ store.length ∧ slugCandidate base j ∉ store := by
  by_contra hc
  push_neg at hc
  have hsub : (Finset.range (store.length + 1)).image (slugCandidate base) ⊆ store.toFinset := by
    intro x hx
    simp only [Finset.mem_image, Finset.mem_range] at hx
    obtain ⟨j, hj, rfl⟩ := hx
    rw [List.mem_toFinset]
    exact hc j (by omega)
  have hcard := Finset.card_le_card hsub
  rw [Finset.card_image_of_injective _ (slugCandidate_inj base), Finset.card_range] at hcard
  have hle := List.toFinset_card_le store
  omega

theorem slugify_uniquely_spec (store : List String) (s : String) :
    ∃ j, j ≤ store.length ∧
      slugify_uniquely store s = some (slugCandidate (slugify s) j) ∧
      slugCandidate (slugify s) j ∉ store ∧
      ∀ t, t < j → slugCandidate (slugify s) t ∈ store := by
  obtain ⟨j0, hj0, hfree0⟩ := slugCandidate_exists_free store (slugify s)
  have hex : ∃ j, slugCandidate (slugify s) j ∉ store := ⟨j0, hfree0⟩
  have hj_le : Nat.find hex ≤ j0 := Nat.find_min' hex hfree0
  have hfree : slugCandidate (slugify s) (Nat.find hex) ∉ store := Nat.find_spec hex
  have hmem : ∀ t, t < Nat.find hex → slugCandidate (slugify s) t ∈ store := by
    intro t ht
    exact not_not.mp (Nat.find_min hex ht)
  refine ⟨Nat.find hex, by omega, ?_, hfree, hmem⟩
  exact slugLoop_first_free store (slugify s) (store.length + 1) 0 (Nat.find hex)
    (Nat.zero_le _) (by omega) (fun t _ h2 => hmem t h2) hfree

theorem createAll_from (S0 : List String) (base : String)
    (hfree : ∀ i, slugCandidate base i ∉ S0) :
    ∀ cs k, (∀ c ∈ cs, slugify c = base) →
      createAll (S0 ++ (List.range k).map (slugCandidate base)) cs
        = some ((List.range' k cs.length).map (slugCandidate base),
                S0 ++ (List.range (k + cs.length)).map (slugCandidate base)) := by
  intro cs
  induction cs with
  | nil => intro k h; simp [createAll, List.range']
  | cons c rest ih =>
    intro k hall
    have hbase : slugify c = base := hall c (List.mem_cons_self c rest)
    have hmem : ∀ t, t < k →
        slugCandidate base t ∈ S0 ++ (List.range k).map (slugCandidate base) := by
      intro t ht
      refine List.mem_append.mpr (Or.inr ?_)
      exact List.mem_map.mpr ⟨t, List.mem_range.mpr ht, rfl⟩
    have hnot : slugCandidate base k ∉ S0 ++ (List.range k).map (slugCandidate base) := by
      intro hmem2
      rcases List.mem_append.mp hmem2 with h1 | h1
      · exact hfree k h1
      · obtain ⟨t, ht, heq⟩ := List.mem_map.mp h1
        have := slugCandidate_inj base heq
        rw [List.mem_range] at ht
        omega
    have hlenk : (S0 ++ (List.range k).map (slugCandidate base)).length = S0.length + k := by
      simp
    have hslug : slugify_uniquely (S0 ++ (List.range k).map (slugCandidate base)) c
        = some (slugCandidate base k) := by
      have hloop := slugLoop_first_free (S0 ++ (List.range k).map (slugCandidate base)) base
        ((S0 ++ (List.range k).map (slugCandidate base)).length + 1) 0 k (Nat.zero_le _)
        (by omega) (fun t _ h2 => hmem t h2) hnot
      simp only [slugify_uniquely, hbase]
      exact hloop
    have hsave : save (S0 ++ (List.range k).map (slugCandidate base)) 1 (mkFresh c)
        = some (Except.ok
            ({ id := some 1, slug := slugCandidate base k, title := none,
               name := some (some c) },
              (S0 ++ (List.range k).map (slugCandidate base)) ++ [slugCandidate base k])) := by
      simp [save, mkFresh, sluggableLocal, hslug, superSave]
    have hst2 : (S0 ++ (List.range k).map (slugCandidate base)) ++ [slugCandidate base k]
        = S0 ++ (List.range (k + 1)).map (slugCandidate base) := by
      rw [List.range_succ]
      simp
    rw [createAll, hsave]
    simp only []
    rw [hst2, ih (k + 1) (fun c2 hc2 => hall c2 (List.mem_cons_of_mem _ hc2))]
    have hk : k + 1 + rest.length = k + (rest.length + 1) := by omega
    rw [hk]
    have hr : List.range' k (rest.length + 1) = k :: List.range' (k + 1) rest.length := by
      rw [List.range'_succ]
    simp [hr]

theorem dictOfPairs_none (k : String) :
    ∀ ps : List (String × String), (∀ p ∈ ps, p.1 ≠ k) → dictOfPairs ps k = none := by
  intro ps
  induction ps with
  | nil => intro _; rfl
  | cons p ps ih =>
    intro h
    rw [dictOfPairs, ih (fun q hq => h q (List.mem_cons_of_mem _ hq))]
    have hne : k ≠ p.1 := fun he => h p (List.mem_cons_self _ _) he.symm
    simp [hne]

theorem attributesDict_none (o : AttrOwner) (k : String)
    (h : ∀ r ∈ o.rows, r.name ≠ k) : attributesDict o k = none := by
  rw [attributesDict]
  apply dictOfPairs_none
  intro p hp
  obtain ⟨r, hr, rfl⟩ := List.mem_map.mp hp
  exact h r hr

theorem filter_update (k v : String) :
    ∀ rows : List AttrRow,
      List.filter (fun r => r.name == k)
          (rows.map (fun r => if r.name == k then { r with value := v } else r))
        = (List.filter (fun r => r.name == k) rows).map
            (fun r => ({ name := r.name, value := v } : AttrRow)) := by
  intro rows
  induction rows with
  | nil => rfl
  | cons r rows ih =>
    rw [List.map_cons, List.filter_cons, List.filter_cons]
    by_cases hr : r.name = k
    · have hb : (r.name == k) = true := by simp [hr]
      have hif : (if r.name == k then ({ r with value := v } : AttrRow) else r)
          = { r with value := v } := if_pos hb
      rw [hif]
      have hb2 : (({ r with value := v } : AttrRow).name == k) = true := hb
      rw [if_pos hb2, if_pos hb, List.map_cons, ih]
    · have hb : ¬((r.name == k) = true) := by simp [hr]
      have hif : (if r.name == k then ({ r with value := v } : AttrRow) else r) = r :=
        if_neg hb
      rw [hif, if_neg hb, if_neg hb, ih]

theorem setitem_effect (o : AttrOwner) (k v : String)
    (h : (matchingRows o k).length ≤ 1) :
    (setitem o k v).2 = some PyError.attributeError
    ∧ matchingRows (setitem o k v).1 k = [{ name := k, value := v }]
    ∧ (setitem o k v).1.rows.length
        = o.rows.length + (if (matchingRows o k).length = 0 then 1 else 0) := by
  rcases hm : matchingRows o k with _ | ⟨r, rest⟩
  · have hm' := hm
    rw [matchingRows] at hm'
    refine ⟨by simp [setitem, hm], ?_, ?_⟩
    · simp only [setitem, hm]
      rw [matchingRows]
      simp only []
      rw [List.filter_append, hm']
      simp
    · simp [setitem, hm]
  · rcases rest with _ | ⟨r2, rest2⟩
    · have hm' := hm
      rw [matchingRows] at hm'
      have hrk : r.name = k := by
        have hmem : r ∈ List.filter (fun x : AttrRow => x.name == k) o.rows := by
          rw [hm']; exact List.mem_cons_self _ _
        have := (List.mem_filter.mp hmem).2
        simpa using this
      refine ⟨by simp [setitem, hm], ?_, ?_⟩
      · simp only [setitem, hm]
        rw [matchingRows]
        simp only []
        rw [filter_update, hm', List.map_cons, List.map_nil, hrk]
      · simp [setitem, hm]
    · rw [hm] at h
      simp at h

/-- Claim C1: for every base string and every N at least 1, creating N entities
in sequence whose candidate names all normalize to the same base slug assigns
the N distinct slugs base, base-1, ..., base-(N-1) in that order, each chosen
by slugify_uniquely against the existing slugs of the same concrete type. -/
theorem createAll_assigns_suffix_sequence (store : List String) (cs : List String) (base : String)
    (_hN : 1 ≤ cs.length)
    (hall : ∀ c ∈ cs, slugify c = base)
    (hfree : ∀ i, slugCandidate base i ∉ store) :
    createAll store cs
      = some ((List.range cs.length).map (slugCandidate base),
              store ++ (List.range cs.length).map (slugCandidate base))
    ∧ ((List.range cs.length).map (slugCandidate base)).Nodup := by
  constructor
  · have h := createAll_from store base hfree cs 0 hall
    simpa [List.range_eq_range'] using h
  · exact (List.nodup_range cs.length).map (slugCandidate_inj base)

theorem createAll_assigns_suffix_sequence_w :
    createAll [] ["Hello World", "hello  world"]
      = some ((List.range (["Hello World", "hello  world"] : List String).length).map
                (slugCandidate "hello-world"),
              [] ++ (List.range (["Hello World", "hello  world"] : List String).length).map
                (slugCandidate "hello-world"))
    ∧ ((List.range (["Hello World", "hello  world"] : List String).length).map
        (slugCandidate "hello-world")).Nodup :=
  createAll_assigns_suffix_sequence [] ["Hello World", "hello  world"] "hello-world"
    (by decide) (by decide) (fun i hi => absurd hi (List.not_mem_nil _))

/-- Claim C6: the slug returned by slugify_uniquely is never equal to any slug
already in the existing store of the same concrete entity type. -/
theorem slugify_uniquely_avoids_existing (store : List String) (s r : String)
    (h : slugify_uniquely store s = some r) : r ∉ store := by
  simp only [slugify_uniquely] at h
  exact slugLoop_mem store (slugify s) (store.length + 1) (slugify s) 0 r h

theorem slugify_uniquely_avoids_existing_w : ("hello-1" : String) ∉ ["hello", "world"] :=
  slugify_uniquely_avoids_existing ["hello", "world"] "Hello" "hello-1" (by decide)

/-- Claim C10: the collision-resolution loop of slugify_uniquely terminates:
the existing store being finite, some suffix index yields a candidate outside
it, and the loop exits within the store.length + 1 probe budget with a
result. -/
theorem slugify_uniquely_terminates (store : List String) (s : String) :
    ∃ r, slugify_uniquely store s = some r := by
  obtain ⟨j, _, h, _, _⟩ := slugify_uniquely_spec store s
  exact ⟨_, h⟩

/-- Claim C2, code behavior: saving a new unsaved entity that declares neither
a title nor a name field does not succeed silently; the mixin itself raises
UnboundLocalError when the final test reads the never-assigned local
sluggable. -/
theorem save_no_title_no_name_unbound_local (store : List String) (newId : Nat) :
    save store newId { id := none, slug := "", title := none, name := none }
      = some (Except.error PyError.unboundLocalError) := rfl

/-- Claim C4: for an entity whose identity is present or whose slug is already
set, save leaves the slug unchanged (it goes straight to the framework save),
whatever the current title or name values are. -/
theorem save_keeps_existing_slug (store : List String) (newId : Nat) (e : SlugEntity)
    (h : e.id ≠ none ∨ e.slug ≠ "") :
    save store newId e = some (Except.ok (superSave store newId e))
    ∧ (superSave store newId e).1.slug = e.slug := by
  have hc : ¬(e.id = none ∧ e.slug = "") := by
    rcases h with h | h
    · exact fun hand => h hand.1
    · exact fun hand => h hand.2
  constructor
  · rw [save, if_neg hc]
  · rfl

theorem save_keeps_existing_slug_w :
    save [] 2 { id := some 7, slug := "kept", title := some (some "New Title"), name := none }
      = some (Except.ok (superSave [] 2
          { id := some 7, slug := "kept", title := some (some "New Title"), name := none }))
    ∧ (superSave [] 2
        { id := some 7, slug := "kept", title := some (some "New Title"), name := none }).1.slug
      = ({ id := some 7, slug := "kept", title := some (some "New Title"), name := none }
          : SlugEntity).slug :=
  save_keeps_existing_slug [] 2
    { id := some 7, slug := "kept", title := some (some "New Title"), name := none }
    (Or.inl (by decide))

/-- Claim C9: when a first save sees both a title field and a name field, the
assigned slug is derived from the name value (the title branch assigns the
local first and the name branch overwrites it). -/
theorem save_title_and_name_uses_name (store : List String) (newId : Nat) (t nm r : String)
    (h : slugify_uniquely store nm = some r) :
    save store newId { id := none, slug := "", title := some (some t), name := some (some nm) }
      = some (Except.ok
          ({ id := some newId, slug := r, title := some (some t), name := some (some nm) },
            store ++ [r])) := by
  simp [save, sluggableLocal, h, superSave]

theorem save_title_and_name_uses_name_w :
    save [] 1 { id := none, slug := "", title := some (some "Alpha"), name := some (some "Beta") }
      = some (Except.ok
          ({ id := some 1, slug := "beta", title := some (some "Alpha"),
             name := some (some "Beta") }, [] ++ ["beta"])) :=
  save_title_and_name_uses_name [] 1 "Alpha" "Beta" "beta" (by decide)

/-- Claim C8: an attribute write via the mapping interface first persists the
attribute row (creating or updating it) and then unconditionally raises
AttributeError from the final snapshot-invalidation statement, because the
snapshot accessor is a method of the class and not an instance attribute; the
write is therefore not atomic on error. -/
theorem setitem_persists_then_raises (o : AttrOwner) (k v : String)
    (h : (matchingRows o k).length ≤ 1) :
    (setitem o k v).2 = some PyError.attributeError
    ∧ matchingRows (setitem o k v).1 k = [{ name := k, value := v }] :=
  ⟨(setitem_effect o k v h).1, (setitem_effect o k v h).2.1⟩

theorem setitem_persists_then_raises_w :
    (setitem { fields := [], rows := [{ name := "color", value := "red" }] } "color" "blue").2
      = some PyError.attributeError
    ∧ matchingRows
        (setitem { fields := [], rows := [{ name := "color", value := "red" }] } "color" "blue").1
        "color"
      = [{ name := "color", value := "blue" }] :=
  setitem_persists_then_raises { fields := [], rows := [{ name := "color", value := "red" }] }
    "color" "blue" (by decide)

/-- Claim C5: writing the same key twice leaves exactly one stored attribute
row for the (owner, name) pair, carrying the most recent value; the first
write adds a row only when none matched, and the second write updates in
place without adding a row. -/
theorem setitem_twice_one_row (o : AttrOwner) (k v1 v2 : String)
    (h : (matchingRows o k).length ≤ 1) :
    matchingRows (setitem (setitem o k v1).1 k v2).1 k = [{ name := k, value := v2 }]
    ∧ (setitem o k v1).1.rows.length
        = o.rows.length + (if (matchingRows o k).length = 0 then 1 else 0)
    ∧ (setitem (setitem o k v1).1 k v2).1.rows.length = (setitem o k v1).1.rows.length := by
  obtain ⟨-, h2, h3⟩ := setitem_effect o k v1 h
  have hle : (matchingRows (setitem o k v1).1 k).length ≤ 1 := by
    rw [h2]
    exact Nat.le_refl 1
  obtain ⟨-, h2b, h3b⟩ := setitem_effect (setitem o k v1).1 k v2 hle
  refine ⟨h2b, h3, ?_⟩
  rw [h3b, h2]
  simp

theorem setitem_twice_one_row_w :
    matchingRows
        (setitem (setitem { fields := [], rows := [] } "n" "a").1 "n" "b").1 "n"
      = [{ name := "n", value := "b" }]
    ∧ (setitem { fields := [], rows := [] } "n" "a").1.rows.length
        = ({ fields := [], rows := [] } : AttrOwner).rows.length
          + (if (matchingRows { fields := [], rows := [] } "n").length = 0 then 1 else 0)
    ∧ (setitem (setitem { fields := [], rows := [] } "n" "a").1 "n" "b").1.rows.length
        = (setitem { fields := [], rows := [] } "n" "a").1.rows.length :=
  setitem_twice_one_row { fields := [], rows := [] } "n" "a" "b" (by decide)

/-- Claim C3, code behavior at the failing input: an attribute write via the
mapping interface never completes without raising; it persists the row and
then raises AttributeError, so the set-then-get round-trip promised by the
spec cannot even start from a successful write. -/
theorem setitem_write_raises_attribute_error :
    setitem { fields := [], rows := [] } "color" "red"
      = ({ fields := [], rows := [{ name := "color", value := "red" }] },
          some PyError.attributeError) := rfl

/-- Claim C7: reading a key that is neither a declared field nor the name of
any stored attribute row of the owner signals exactly the distinct
key-not-found error (KeyError), not a value and not any other error. -/
theorem getitem_unknown_key_raises_keyerror (o : AttrOwner) (k : String)
    (h1 : lookupField o k = none) (h2 : ∀ r ∈ o.rows, r.name ≠ k) :
    getitem o k = Except.error PyError.keyError := by
  rw [getitem, h1, attributesDict_none o k h2]

theorem getitem_unknown_key_raises_keyerror_w :
    getitem { fields := [("title", "A Title")], rows := [{ name := "color", value := "red" }] }
      "missing" = Except.error PyError.keyError :=
  getitem_unknown_key_raises_keyerror
    { fields := [("title", "A Title")], rows := [{ name := "color", value := "red" }] }
    "missing" (by decide) (by decide)

end Entropy
